import Mathlib

/-!
Verification of the rclone VFS cache engine specification.

The repository provides `vfs/help.go` (the authoritative description of the
four cache modes) and `cmd/mountlib/mounttest/fs.go` (the mount test driver).
The test driver is embedded directly from the source.  The cache engine
itself (handles, on-disk cache, directory cache, reconciler) is not among the
source files, so its operations are modelled from the specification, each
such definition marked `Modelled from the spec:` in its doc comment.
-/

namespace RcloneVfs

/-- The four cache modes, from `vfs.CacheMode` as used in
`cmd/mountlib/mounttest/fs.go` and documented in `vfs/help.go`:
`off|minimal|writes|full`. -/
inductive CacheMode
  | off
  | minimal
  | writes
  | full
deriving DecidableEq, Repr

/-- Access mode requested by an open call (derived from the open flags). -/
inductive AccessMode
  | readOnly
  | writeOnly
  | readWrite
deriving DecidableEq, Repr

/-- Modelled from the spec: the five Handle variants of §4.2 (the concrete
handle types of the vfs package are not among the source files). -/
inductive HandleVariant
  | directRead
  | directWrite
  | bufferedRead
  | bufferedWrite
  | bufferedReadWrite
deriving DecidableEq, Repr

/-- Modelled from the spec: the error kinds of §7 (the vfs error values are
not among the source files). -/
inductive VfsError
  | notFound
  | alreadyExists
  | permissionDenied
  | unsupportedOperation
  | transientBackendError
  | writeBackFailed
deriving DecidableEq, Repr

/-- Modelled from the spec: the Cache Mode Policy decision table of §4.3,
mapping (cache mode, access mode) to the Handle variant (the policy function
of the vfs package is not among the source files).  Under `off`, a
read-write open falls back to write-only (`vfs/help.go`: "Files can't be
opened for both read AND write"). -/
def policy : CacheMode → AccessMode → HandleVariant
  | .off, .readOnly => .directRead
  | .off, .writeOnly => .directWrite
  | .off, .readWrite => .directWrite
  | .minimal, .readOnly => .directRead
  | .minimal, .writeOnly => .directWrite
  | .minimal, .readWrite => .bufferedReadWrite
  | .writes, .readOnly => .directRead
  | .writes, .writeOnly => .bufferedWrite
  | .writes, .readWrite => .bufferedReadWrite
  | .full, .readOnly => .bufferedRead
  | .full, .writeOnly => .bufferedWrite
  | .full, .readWrite => .bufferedReadWrite

/-- Modelled from the spec: whether a Handle variant has read capability
(§4.2: Direct-Write forwards writes only; no read operations permitted on a
write-only variant). -/
def HandleVariant.canRead : HandleVariant → Bool
  | .directRead => true
  | .directWrite => false
  | .bufferedRead => true
  | .bufferedWrite => false
  | .bufferedReadWrite => true

/-- Modelled from the spec: whether a Handle variant has write capability. -/
def HandleVariant.canWrite : HandleVariant → Bool
  | .directRead => false
  | .directWrite => true
  | .bufferedRead => false
  | .bufferedWrite => true
  | .bufferedReadWrite => true

/-- Modelled from the spec: whether a Handle variant can honor append-on-open
(§4.2: a variant that cannot honor `O_APPEND` — e.g. Direct-Write — silently
ignores it; `vfs/help.go`: "Open modes O_APPEND, O_TRUNC are ignored"). -/
def HandleVariant.honorsAppend : HandleVariant → Bool
  | .bufferedWrite => true
  | .bufferedReadWrite => true
  | _ => false

/-- Modelled from the spec: whether a Handle variant can honor
truncate-on-open (`O_TRUNC`). -/
def HandleVariant.honorsTrunc : HandleVariant → Bool
  | .bufferedWrite => true
  | .bufferedReadWrite => true
  | _ => false

/-- Open flags carried by an open request: the access mode plus the
`O_APPEND` and `O_TRUNC` bits. -/
structure OpenFlags where
  access : AccessMode
  append : Bool
  trunc : Bool
deriving DecidableEq, Repr

/-- Modelled from the spec: one open-file session (§3 Handle): variant tag,
current offset, whether any write has been performed, and the effective
append/truncate-on-open behavior after resolution against the variant. -/
structure Handle where
  variant : HandleVariant
  offset : Nat
  written : Bool
  appendMode : Bool
  truncOnOpen : Bool
deriving DecidableEq, Repr

/-- Modelled from the spec: the open operation.  The Cache Mode Policy picks
the variant; `O_APPEND`/`O_TRUNC` that the variant cannot honor are silently
dropped (§4.2, §7: the open is never failed because of these flags). -/
def openFile (mode : CacheMode) (flags : OpenFlags) : Except VfsError Handle :=
  let v := policy mode flags.access
  Except.ok
    { variant := v
      offset := 0
      written := false
      appendMode := flags.append && v.honorsAppend
      truncOnOpen := flags.trunc && v.honorsTrunc }

/-- Modelled from the spec: a read call on a Handle.  A variant without read
capability fails with `UnsupportedOperation`; otherwise up to `n` bytes of
`content` (the remote object or the local cache copy) are returned from the
current offset and the offset advances. -/
def Handle.read (h : Handle) (content : List Nat) (n : Nat) :
    Except VfsError (List Nat × Handle) :=
  if h.variant.canRead then
    let bytes := (content.drop h.offset).take n
    Except.ok (bytes, { h with offset := h.offset + bytes.length })
  else
    Except.error VfsError.unsupportedOperation

/-- Modelled from the spec: a write call on a Handle.  A variant without
write capability fails with `UnsupportedOperation`; otherwise the offset
advances and the Handle records that a write has been performed. -/
def Handle.write (h : Handle) (data : List Nat) : Except VfsError Handle :=
  if h.variant.canWrite then
    Except.ok { h with offset := h.offset + data.length, written := true }
  else
    Except.error VfsError.unsupportedOperation

/-- Modelled from the spec: a seek call on a Handle (§4.2).  On a
Direct-Write Handle, seek is not permitted once any byte has been written
and fails with `UnsupportedOperation`; every other case only adjusts the
offset. -/
def Handle.seek (h : Handle) (pos : Nat) : Except VfsError Handle :=
  match h.variant with
  | .directWrite =>
    if h.written then Except.error VfsError.unsupportedOperation
    else Except.ok { h with offset := pos }
  | _ => Except.ok { h with offset := pos }

/-- Modelled from the spec: the on-disk materialization of a FileNode's
content (§3 CacheEntry): content bytes, dirty flag, pinned count, age. -/
structure CacheEntry where
  content : List Nat
  dirty : Bool
  pinned : Nat
  age : Nat
deriving DecidableEq, Repr

/-- Modelled from the spec: the remote-facing attributes of a FileNode (§3):
remote size and remote modification time as last observed. -/
structure FileNode where
  remoteSize : Nat
  remoteModTime : Nat
deriving DecidableEq, Repr

/-- A remote object store (and also the on-disk cache content store): an
association of remote path to content bytes. -/
abbrev Store := List (String × List Nat)

/-- Set the object at a path in a store, replacing any existing object. -/
def storeSet (st : Store) (p : String) (v : List Nat) : Store :=
  (p, v) :: st.filter (fun kv => kv.1 ≠ p)

/-- Look up the object at a path in a store. -/
def storeGet : Store → String → Option (List Nat)
  | [], _ => none
  | (q, v) :: rest, p => if q = p then some v else storeGet rest p

/-- Overwrite `data` into `content` starting at byte offset `off`,
zero-filling any gap and extending the content as needed (the CacheEntry
supports arbitrary seek, truncate and append, §4.2). -/
def writeAt (content : List Nat) (off : Nat) (data : List Nat) : List Nat :=
  content.take off ++ List.replicate (off - content.length) 0 ++ data ++
    content.drop (off + data.length)

/-- State of one buffered write session: the local CacheEntry, the owning
FileNode and the remote store. -/
structure BufState where
  entry : CacheEntry
  node : FileNode
  remote : Store
deriving DecidableEq, Repr

/-- Operations available on a buffered Handle before close. -/
inductive BufOp
  | write (off : Nat) (data : List Nat)
  | seek (pos : Nat)
  | read (off : Nat) (n : Nat)
deriving DecidableEq, Repr

/-- Modelled from the spec: effect of one buffered-Handle operation (§4.2
Buffered-Write / Buffered-ReadWrite): all writes go to the local CacheEntry,
which is marked dirty; nothing touches the remote before close. -/
def bufStep (s : BufState) : BufOp → BufState
  | .write off data =>
    { s with entry :=
        { s.entry with content := writeAt s.entry.content off data, dirty := true } }
  | .seek _ => s
  | .read _ _ => s

/-- Run a list of buffered-Handle operations. -/
def bufRun (s : BufState) (ops : List BufOp) : BufState :=
  ops.foldl bufStep s

/-- Modelled from the spec: close of a buffered Handle (§4.2): if the
CacheEntry is dirty, the entire local content is uploaded to the remote as
one write; only on successful upload (`uploadOk`) is the dirty flag cleared
and the FileNode's remote size/modtime updated.  On failure the CacheEntry
is preserved dirty on disk and `WriteBackFailed` propagates to the closer. -/
def closeBuffered (uploadOk : Bool) (path : String) (t : Nat) (s : BufState) :
    Except VfsError Unit × BufState :=
  if s.entry.dirty then
    if uploadOk then
      (Except.ok (),
        { entry := { s.entry with dirty := false }
          node := { remoteSize := s.entry.content.length, remoteModTime := t }
          remote := storeSet s.remote path s.entry.content })
    else
      (Except.error VfsError.writeBackFailed, s)
  else
    (Except.ok (), s)

/-- Modelled from the spec: purge eligibility in one reconciliation cycle
(§4.4): only entries with pinned count 0 and a clear dirty flag are
eligible; under `Full` mode an additional age condition applies (older than
the configured maximum age), while every other mode removes eagerly. -/
def purgeEligible (mode : CacheMode) (maxAge : Nat) (e : CacheEntry) : Bool :=
  e.pinned == 0 && !e.dirty &&
    (match mode with
     | .full => decide (maxAge < e.age)
     | _ => true)

/-- Modelled from the spec: one reconciliation cycle over the on-disk cache
entries, removing every purge-eligible entry (§4.4). -/
def reconcile (mode : CacheMode) (maxAge : Nat) (entries : List CacheEntry) :
    List CacheEntry :=
  entries.filter (fun e => !purgeEligible mode maxAge e)

/-- Modelled from the spec: one cached directory node (§3 DirNode):
last-refreshed timestamp and staleness flag for TTL accounting, plus the
cached child listing. -/
structure DirNode where
  path : String
  lastRefreshed : Nat
  stale : Bool
  childNames : List String
deriving DecidableEq, Repr

/-- The Directory Tree Cache state: the set of cached DirNodes. -/
structure DirCache where
  dirs : List DirNode
deriving DecidableEq, Repr

/-- Modelled from the spec: `flushAll()` (§4.1) marks every cached DirNode
stale, regardless of TTL; invoked by the external flush trigger. -/
def flushAll (c : DirCache) : DirCache :=
  { dirs := c.dirs.map (fun d => { d with stale := true }) }

/-- A pending local mutation on a directory not yet reflected remotely. -/
inductive LocalChange
  | created
  | deleted
deriving DecidableEq, Repr

/-- First pending local mutation recorded for a name, if any. -/
def pendingLookup : List (String × LocalChange) → String → Option LocalChange
  | [], _ => none
  | (q, m) :: rest, n => if q = n then some m else pendingLookup rest n

/-- Modelled from the spec: merge of a remote listing with the pending local
mutations (§4.1): a local create/delete not yet reflected remotely wins over
the remote listing for that name. -/
def mergeListing (remoteNames : List String)
    (pending : List (String × LocalChange)) : List String :=
  remoteNames.filter
      (fun n => pendingLookup pending n ≠ some LocalChange.deleted) ++
    (pending.filter
      (fun nm : String × LocalChange =>
        decide (pendingLookup pending nm.1 = some LocalChange.created ∧
          ¬ nm.1 ∈ remoteNames))).map Prod.fst

/-- State of one directory in the Directory Tree Cache, with its pending
local mutations. -/
structure DirState where
  cachedNames : List String
  pending : List (String × LocalChange)
  lastRefreshed : Nat
  stale : Bool
deriving DecidableEq, Repr

/-- Modelled from the spec: a local file create under a directory: the child
appears in the cached listing, a pending `created` mutation is recorded, and
the DirNode is invalidated (§4.1: `invalidate` is called after any local
mutation). -/
def createFileLocal (d : DirState) (name : String) : DirState :=
  { cachedNames := if d.cachedNames.contains name then d.cachedNames
                   else d.cachedNames ++ [name]
    pending := (name, LocalChange.created) :: d.pending.filter (fun nm => nm.1 ≠ name)
    lastRefreshed := d.lastRefreshed
    stale := true }

/-- Modelled from the spec: a local file delete under a directory: the child
leaves the cached listing, a pending `deleted` mutation is recorded, and the
DirNode is invalidated. -/
def deleteFileLocal (d : DirState) (name : String) : DirState :=
  { cachedNames := d.cachedNames.filter (fun n => n ≠ name)
    pending := (name, LocalChange.deleted) :: d.pending.filter (fun nm => nm.1 ≠ name)
    lastRefreshed := d.lastRefreshed
    stale := true }

/-- Modelled from the spec: listing a directory (§4.1 `lookup`): while the
node is fresh (not stale and within TTL) the cached children are served;
otherwise a re-list against the remote happens and is merged with the
pending local mutations. -/
def listDir (now ttl : Nat) (remoteNames : List String) (d : DirState) :
    List String × DirState :=
  if !d.stale && now - d.lastRefreshed ≤ ttl then
    (d.cachedNames, d)
  else
    let names := mergeListing remoteNames d.pending
    (names, { cachedNames := names, pending := d.pending, lastRefreshed := now,
              stale := false })

/-- Modelled from the spec: create a file, write a byte sequence through the
variant the Cache Mode Policy picks for a write-only open, and close the
handle (§4.2, §4.3).  Direct-Write streams the bytes to the remote, the
object complete at close; a buffered variant writes into a fresh CacheEntry
and uploads the whole content at close. -/
def createWriteClose (mode : CacheMode) (path : String) (data : List Nat)
    (remote : Store) : Store :=
  match policy mode AccessMode.writeOnly with
  | .directWrite => storeSet remote path data
  | .bufferedWrite =>
    let s0 : BufState := ⟨⟨[], false, 1, 0⟩, ⟨0, 0⟩, remote⟩
    let s1 := bufStep s0 (BufOp.write 0 data)
    (closeBuffered true path 0 s1).2.remote
  | _ => remote

/-- Modelled from the spec: read a file back through a fresh read-only open
(§4.2, §4.3).  Direct-Read serves the remote object; Buffered-Read (mode
`full`) first downloads the whole object into a fresh CacheEntry and serves
the local copy. -/
def readBackFresh (mode : CacheMode) (path : String) (remote : Store) :
    Option (List Nat) :=
  match policy mode AccessMode.readOnly with
  | .directRead => storeGet remote path
  | .bufferedRead =>
    match storeGet remote path with
    | none => none
    | some v => storeGet (storeSet [] path v) path
  | _ => none

/-- Modelled from the spec: the configuration surface for synthesized
permission bits (§6): file and directory permission bits. -/
structure VfsOpt where
  dirPerms : Nat
  filePerms : Nat
deriving DecidableEq, Repr

/-- Kind of an entry exposed through the mounted tree. -/
inductive NodeKind
  | dirKind
  | fileKind
deriving DecidableEq, Repr

/-- One entry exposed through the mounted tree, keyed by path (§9:
arena-style storage keyed by path). -/
structure TreeEntry where
  path : String
  kind : NodeKind
deriving DecidableEq, Repr

/-- Attributes synthesized for one exposed entry. -/
structure Attrs where
  perms : Nat
  isDir : Bool
deriving DecidableEq, Repr

/-- Modelled from the spec: attribute synthesis (§3, §6): a directory gets
the configured directory permission bits, a file the configured file
permission bits; only the low nine permission bits are exposed (the test
driver compares against `Opt.DirPerms & os.ModePerm`). -/
def synthAttrs (opt : VfsOpt) (e : TreeEntry) : Attrs :=
  match e.kind with
  | .dirKind => { perms := opt.dirPerms % 512, isDir := true }
  | .fileKind => { perms := opt.filePerms % 512, isDir := false }

/-- The root entry of the mounted tree: a directory at the empty path. -/
def rootEntry : TreeEntry := { path := "", kind := NodeKind.dirKind }

/-- Stat of every entry exposed through the mounted tree. -/
def statAll (opt : VfsOpt) (tree : List TreeEntry) : List (TreeEntry × Attrs) :=
  tree.map (fun e => (e, synthAttrs opt e))

end RcloneVfs

namespace MountTest

open RcloneVfs

/-- The list of cache modes exercised by `TestMain` in
`cmd/mountlib/mounttest/fs.go` (lines 42-47): Off, Minimal, Writes, Full in
that order. -/
def cacheModes : List CacheMode :=
  [CacheMode.off, CacheMode.minimal, CacheMode.writes, CacheMode.full]

/-- The default cache mode, `vfs.DefaultOpt.CacheMode`.  Modelled from the
spec: the `DefaultOpt` value is not among the source files; `vfs/help.go`
documents `--cache-mode string  Cache mode off|minimal|writes|full
(default "off")`. -/
def defaultCacheMode : CacheMode := CacheMode.off

/-- Observable state of the test driver: the global cache-mode option
(`vfsflags.Opt.CacheMode`), the list of (mode, run identifier) pairs for
which a fresh `Run` was constructed by `newRun()`, a counter of constructed
runs, and the current return code `rc`. -/
structure TMState where
  optCacheMode : CacheMode
  runsStarted : List (CacheMode × Nat)
  nextRunId : Nat
  rc : Int
deriving DecidableEq, Repr

/-- The loop body of `TestMain` (`fs.go` lines 48-58): for each cache mode,
set `vfsflags.Opt.CacheMode`, construct a fresh run, execute the tests
(`runResult` gives `m.Run()`'s return code for that mode and run id),
finalise, and break out of the loop on a non-zero return code. -/
def testMainLoop (runResult : CacheMode → Nat → Int) :
    List CacheMode → TMState → TMState
  | [], s => s
  | mode :: rest, s =>
    if runResult mode s.nextRunId ≠ 0 then
      { optCacheMode := mode
        runsStarted := s.runsStarted ++ [(mode, s.nextRunId)]
        nextRunId := s.nextRunId + 1
        rc := runResult mode s.nextRunId }
    else
      testMainLoop runResult rest
        { optCacheMode := mode
          runsStarted := s.runsStarted ++ [(mode, s.nextRunId)]
          nextRunId := s.nextRunId + 1
          rc := runResult mode s.nextRunId }

/-- The driver `TestMain` from `cmd/mountlib/mounttest/fs.go` (lines 38-62):
run the loop over `cacheModes`, then restore `vfsflags.Opt.CacheMode` to
`vfs.DefaultOpt.CacheMode` before exiting with the last return code. -/
def TestMain (runResult : CacheMode → Nat → Int) (s : TMState) : TMState :=
  let s1 := testMainLoop runResult cacheModes s
  { s1 with optCacheMode := defaultCacheMode }

/-- Specification-side description of the runs the driver performs: the
initial segment of the mode list up to and including the first mode whose
run returns a non-zero code, each paired with its fresh run identifier. -/
def expectedRuns (runResult : CacheMode → Nat → Int) :
    List CacheMode → Nat → List (CacheMode × Nat)
  | [], _ => []
  | mode :: rest, k =>
    if runResult mode k ≠ 0 then [(mode, k)]
    else (mode, k) :: expectedRuns runResult rest (k + 1)

end MountTest

/-!
Theorems.  Each claim of the specification is settled by one theorem below;
shared helper lemmas precede them.
-/

namespace RcloneVfs

/-- Reading a freshly set path of a store returns the value just set. -/
theorem storeGet_storeSet (st : Store) (p : String) (v : List Nat) :
    storeGet (storeSet st p v) p = some v := by
  simp [storeSet, storeGet]

/-- C1: Under cache mode Off, every open request with read-write flags
succeeds but degrades to a write-only handle: the chosen variant is
Direct-Write, it has no read capability, and every read call on a handle of
that variant fails with `UnsupportedOperation` while writes remain
available. -/
theorem offReadWriteDegrades (flags : OpenFlags)
    (hacc : flags.access = AccessMode.readWrite) :
    ∃ h : Handle, openFile CacheMode.off flags = Except.ok h ∧
      h.variant = HandleVariant.directWrite ∧
      h.variant.canRead = false ∧
      h.variant.canWrite = true ∧
      ∀ (h' : Handle), h'.variant = h.variant →
        ∀ (content : List Nat) (n : Nat),
          h'.read content n = Except.error VfsError.unsupportedOperation := by
  have hv : policy CacheMode.off flags.access = HandleVariant.directWrite := by
    rw [hacc]; rfl
  refine ⟨_, rfl, ?_, ?_, ?_, ?_⟩
  · simpa [openFile] using hv
  · simp [openFile, hv, HandleVariant.canRead]
  · simp [openFile, hv, HandleVariant.canWrite]
  · intro h' hv' content n
    simp only [openFile] at hv'
    rw [hv] at hv'
    obtain ⟨v, off, w, am, tr⟩ := h'
    simp only at hv'
    subst hv'
    simp [Handle.read, HandleVariant.canRead]

/-- Witness for C1 at the concrete read-write open flags. -/
theorem offReadWriteDegradesWitness :
    ∃ h : Handle,
      openFile CacheMode.off ⟨AccessMode.readWrite, false, false⟩ =
        Except.ok h ∧
      h.variant = HandleVariant.directWrite ∧
      h.variant.canRead = false ∧
      h.variant.canWrite = true ∧
      ∀ (h' : Handle), h'.variant = h.variant →
        ∀ (content : List Nat) (n : Nat),
          h'.read content n = Except.error VfsError.unsupportedOperation :=
  offReadWriteDegrades ⟨AccessMode.readWrite, false, false⟩ rfl

/-- C2: Under cache modes Off and Minimal, a write-only open yields a
Direct-Write handle with no write performed yet; on any handle of that
variant a seek after a write fails with `UnsupportedOperation`, a seek
before the first write succeeds (only adjusting the offset), and every
write succeeds and records that a write has been performed. -/
theorem writeOnlyNoSeekAfterWrite (mode : CacheMode)
    (hmode : mode = CacheMode.off ∨ mode = CacheMode.minimal)
    (flags : OpenFlags) (hacc : flags.access = AccessMode.writeOnly) :
    ∃ h : Handle, openFile mode flags = Except.ok h ∧
      h.variant = HandleVariant.directWrite ∧
      h.written = false ∧
      (∀ (h' : Handle), h'.variant = h.variant → h'.written = true →
        ∀ (pos : Nat),
          h'.seek pos = Except.error VfsError.unsupportedOperation) ∧
      (∀ (h' : Handle), h'.variant = h.variant → h'.written = false →
        ∀ (pos : Nat), h'.seek pos = Except.ok { h' with offset := pos }) ∧
      (∀ (h' : Handle) (data : List Nat), h'.variant = h.variant →
        ∃ h'' : Handle, h'.write data = Except.ok h'' ∧
          h''.written = true) := by
  have hv : policy mode flags.access = HandleVariant.directWrite := by
    rcases hmode with h | h <;> rw [h, hacc] <;> rfl
  refine ⟨_, rfl, ?_, rfl, ?_, ?_, ?_⟩
  · simpa [openFile] using hv
  · intro h' hv' hw pos
    simp only [openFile] at hv'
    rw [hv] at hv'
    obtain ⟨v, off, w, am, tr⟩ := h'
    simp only at hv' hw
    subst hv'; subst hw
    simp [Handle.seek]
  · intro h' hv' hw pos
    simp only [openFile] at hv'
    rw [hv] at hv'
    obtain ⟨v, off, w, am, tr⟩ := h'
    simp only at hv' hw
    subst hv'; subst hw
    simp [Handle.seek]
  · intro h' data hv'
    simp only [openFile] at hv'
    rw [hv] at hv'
    obtain ⟨v, off, w, am, tr⟩ := h'
    simp only at hv'
    subst hv'
    exact ⟨⟨HandleVariant.directWrite, off + data.length, true, am, tr⟩,
      by simp [Handle.write, HandleVariant.canWrite], rfl⟩

/-- Witness for C2 at cache mode Minimal and concrete write-only flags. -/
theorem writeOnlyNoSeekAfterWriteWitness :
    ∃ h : Handle,
      openFile CacheMode.minimal ⟨AccessMode.writeOnly, false, false⟩ =
        Except.ok h ∧
      h.variant = HandleVariant.directWrite ∧
      h.written = false ∧
      (∀ (h' : Handle), h'.variant = h.variant → h'.written = true →
        ∀ (pos : Nat),
          h'.seek pos = Except.error VfsError.unsupportedOperation) ∧
      (∀ (h' : Handle), h'.variant = h.variant → h'.written = false →
        ∀ (pos : Nat), h'.seek pos = Except.ok { h' with offset := pos }) ∧
      (∀ (h' : Handle) (data : List Nat), h'.variant = h.variant →
        ∃ h'' : Handle, h'.write data = Except.ok h'' ∧
          h''.written = true) :=
  writeOnlyNoSeekAfterWrite CacheMode.minimal (Or.inr rfl)
    ⟨AccessMode.writeOnly, false, false⟩ rfl

/-- C8: Every open succeeds whatever the `O_APPEND`/`O_TRUNC` flags; when
the chosen variant cannot honor one of them, the open result is identical
to the result without that flag — the flag is silently ignored, never a
reason to fail the open. -/
theorem openIgnoresUnsupportedFlags (mode : CacheMode) (flags : OpenFlags) :
    (∃ h : Handle, openFile mode flags = Except.ok h) ∧
    ((policy mode flags.access).honorsAppend = false →
      openFile mode flags = openFile mode { flags with append := false }) ∧
    ((policy mode flags.access).honorsTrunc = false →
      openFile mode flags = openFile mode { flags with trunc := false }) := by
  refine ⟨⟨_, rfl⟩, ?_, ?_⟩ <;> intro hveto <;> simp [openFile, hveto]

/-- Witness for C8: under Off, a write-only open with both flags set equals
the same open without `O_TRUNC` (the Direct-Write variant cannot honor it). -/
theorem openIgnoresUnsupportedFlagsWitness :
    openFile CacheMode.off ⟨AccessMode.writeOnly, true, true⟩ =
      openFile CacheMode.off ⟨AccessMode.writeOnly, true, false⟩ :=
  (openIgnoresUnsupportedFlags CacheMode.off
    ⟨AccessMode.writeOnly, true, true⟩).2.2 rfl

end RcloneVfs

namespace RcloneVfs

/-- Characterization of purge eligibility: pinned count zero, clear dirty
flag, and (under `Full` only) age over the configured maximum. -/
theorem purgeEligible_true_iff (mode : CacheMode) (maxAge : Nat)
    (e : CacheEntry) :
    purgeEligible mode maxAge e = true ↔
      e.pinned = 0 ∧ e.dirty = false ∧
        (mode = CacheMode.full → maxAge < e.age) := by
  cases mode <;> simp [purgeEligible, and_assoc]

/-- C4: In a reconciliation cycle, a dirty or pinned entry is never purged;
under `Full` an entry is removed exactly when it is unpinned, non-dirty and
older than the configured maximum age; under every other mode it is removed
exactly when it is unpinned and non-dirty, independent of age. -/
theorem reconcilerPurgePolicy (mode : CacheMode) (maxAge : Nat)
    (entries : List CacheEntry) (e : CacheEntry) (he : e ∈ entries) :
    ((e.dirty = true ∨ 0 < e.pinned) → e ∈ reconcile mode maxAge entries) ∧
    (mode = CacheMode.full →
      (e ∉ reconcile mode maxAge entries ↔
        e.pinned = 0 ∧ e.dirty = false ∧ maxAge < e.age)) ∧
    (mode ≠ CacheMode.full →
      (e ∉ reconcile mode maxAge entries ↔
        e.pinned = 0 ∧ e.dirty = false)) := by
  have hnot : (e ∉ reconcile mode maxAge entries) ↔
      purgeEligible mode maxAge e = true := by
    simp [reconcile, List.mem_filter, he]
  refine ⟨?_, ?_, ?_⟩
  · intro hcase
    by_contra habs
    have h1 := (purgeEligible_true_iff mode maxAge e).mp (hnot.mp habs)
    rcases hcase with hc | hc
    · exact absurd h1.2.1 (by simp [hc])
    · exact absurd h1.1 (by omega)
  · intro hm
    subst hm
    rw [hnot, purgeEligible_true_iff]
    simp
  · intro hm
    rw [hnot, purgeEligible_true_iff]
    constructor
    · rintro ⟨h1, h2, _⟩
      exact ⟨h1, h2⟩
    · rintro ⟨h1, h2⟩
      exact ⟨h1, h2, fun hf => absurd hf hm⟩

/-- Witness for C4: a dirty, unpinned, over-age entry survives the cycle. -/
theorem reconcilerPurgePolicyWitness :
    (⟨[], true, 0, 5⟩ : CacheEntry) ∈
      reconcile CacheMode.full 1 [⟨[], true, 0, 5⟩] :=
  (reconcilerPurgePolicy CacheMode.full 1 [⟨[], true, 0, 5⟩]
    ⟨[], true, 0, 5⟩ (by simp)).1 (Or.inl rfl)

/-- C5: The flush trigger marks every cached DirNode stale regardless of its
TTL bookkeeping, is a no-op on a state with no cached directories, and is
idempotent: flushing twice equals flushing once. -/
theorem flushAllStaleIdempotent (c : DirCache) :
    (∀ d ∈ (flushAll c).dirs, d.stale = true) ∧
    (c.dirs = [] → flushAll c = c) ∧
    flushAll (flushAll c) = flushAll c := by
  obtain ⟨dirs⟩ := c
  refine ⟨?_, ?_, ?_⟩
  · intro d hd
    simp [flushAll] at hd
    obtain ⟨d0, hd0, rfl⟩ := hd
    rfl
  · intro h
    change dirs = [] at h
    subst h
    rfl
  · simp only [flushAll]
    congr 1
    rw [List.map_map]
    induction dirs with
    | nil => rfl
    | cons d rest ih =>
      simp only [List.map_cons]
      rw [ih]
      rfl

/-- Witness for C5: flushing an empty directory cache is a no-op. -/
theorem flushAllStaleIdempotentWitness : flushAll ⟨[]⟩ = ⟨[]⟩ :=
  (flushAllStaleIdempotent ⟨[]⟩).2.1 rfl

/-- C9: Every entry exposed through the mounted tree carries exactly the
configured synthesized permission bits: directories (including the root)
carry the configured directory permission bits and files the configured
file permission bits. -/
theorem synthesizedPerms (opt : VfsOpt) (tree : List TreeEntry) :
    (∀ ea ∈ statAll opt tree,
      (ea.2.isDir = true → ea.2.perms = opt.dirPerms % 512) ∧
      (ea.2.isDir = false → ea.2.perms = opt.filePerms % 512)) ∧
    (synthAttrs opt rootEntry).isDir = true ∧
    (synthAttrs opt rootEntry).perms = opt.dirPerms % 512 := by
  refine ⟨?_, rfl, rfl⟩
  intro ea hea
  simp [statAll] at hea
  obtain ⟨e, he, rfl⟩ := hea
  cases hk : e.kind <;> simp [synthAttrs, hk]

/-- Witness for C9 at a concrete configuration and a one-directory tree. -/
theorem synthesizedPermsWitness :
    ((⟨"a", NodeKind.dirKind⟩,
        synthAttrs ⟨493, 420⟩ ⟨"a", NodeKind.dirKind⟩) :
      TreeEntry × Attrs).2.perms = 493 % 512 :=
  ((synthesizedPerms ⟨493, 420⟩ [⟨"a", NodeKind.dirKind⟩]).1
    (⟨"a", NodeKind.dirKind⟩, synthAttrs ⟨493, 420⟩ ⟨"a", NodeKind.dirKind⟩)
    (by simp [statAll])).1 rfl

end RcloneVfs

namespace RcloneVfs

/-- A buffered-Handle operation never touches the remote store. -/
theorem bufStep_remote (s : BufState) (op : BufOp) :
    (bufStep s op).remote = s.remote := by
  cases op <;> rfl

/-- A buffered-Handle operation never touches the FileNode attributes. -/
theorem bufStep_node (s : BufState) (op : BufOp) :
    (bufStep s op).node = s.node := by
  cases op <;> rfl

/-- A whole buffered session before close never touches the remote store. -/
theorem bufRun_remote (ops : List BufOp) :
    ∀ s : BufState, (bufRun s ops).remote = s.remote := by
  induction ops with
  | nil => intro s; rfl
  | cons op rest ih =>
    intro s
    calc (bufRun s (op :: rest)).remote
        = (bufRun (bufStep s op) rest).remote := rfl
      _ = (bufStep s op).remote := ih _
      _ = s.remote := bufStep_remote s op

/-- A whole buffered session before close never updates the FileNode. -/
theorem bufRun_node (ops : List BufOp) :
    ∀ s : BufState, (bufRun s ops).node = s.node := by
  induction ops with
  | nil => intro s; rfl
  | cons op rest ih =>
    intro s
    calc (bufRun s (op :: rest)).node
        = (bufRun (bufStep s op) rest).node := rfl
      _ = (bufStep s op).node := ih _
      _ = s.node := bufStep_node s op

/-- C3: For a buffered handle with a dirty CacheEntry, upload happens only
at close — no session operation touches the remote or the FileNode; on a
successful close the dirty flag is cleared, the content preserved on disk,
the FileNode's remote size/modtime updated, and the remote object holds the
entry's content; on a failed upload `WriteBackFailed` propagates and the
whole state — the CacheEntry still dirty with its content — is preserved. -/
theorem bufferedWriteBackOnClose (s : BufState) (ops : List BufOp)
    (path : String) (t : Nat) (hdirty : s.entry.dirty = true) :
    (bufRun s ops).remote = s.remote ∧
    (bufRun s ops).node = s.node ∧
    (closeBuffered true path t s).1 = Except.ok () ∧
    (closeBuffered true path t s).2.entry.dirty = false ∧
    (closeBuffered true path t s).2.entry.content = s.entry.content ∧
    (closeBuffered true path t s).2.node.remoteSize =
      s.entry.content.length ∧
    (closeBuffered true path t s).2.node.remoteModTime = t ∧
    storeGet (closeBuffered true path t s).2.remote path =
      some s.entry.content ∧
    (closeBuffered false path t s).1 =
      Except.error VfsError.writeBackFailed ∧
    (closeBuffered false path t s).2 = s := by
  refine ⟨bufRun_remote ops s, bufRun_node ops s,
    ?_, ?_, ?_, ?_, ?_, ?_, ?_, ?_⟩ <;>
    simp [closeBuffered, hdirty, storeGet_storeSet]

/-- Witness for C3: a dirty two-byte entry reaches the remote at close. -/
theorem bufferedWriteBackOnCloseWitness :
    storeGet (closeBuffered true "f" 7
        ⟨⟨[1, 2], true, 1, 0⟩, ⟨0, 0⟩, []⟩).2.remote "f" = some [1, 2] :=
  (bufferedWriteBackOnClose ⟨⟨[1, 2], true, 1, 0⟩, ⟨0, 0⟩, []⟩ [] "f" 7
    rfl).2.2.2.2.2.2.2.1

/-- C6: Under every one of the four cache modes and for every byte
sequence, creating a file, writing the sequence and closing, then reading
back through a fresh read-only open returns exactly the written bytes, and
the remote object at that path has size equal to the bytes written. -/
theorem roundTripAllModes (mode : CacheMode) (path : String)
    (data : List Nat) (remote : Store) :
    readBackFresh mode path (createWriteClose mode path data remote) =
      some data ∧
    (storeGet (createWriteClose mode path data remote) path).map
        List.length = some data.length := by
  cases mode <;>
    simp [createWriteClose, readBackFresh, policy, bufStep, bufRun,
      closeBuffered, writeAt, storeGet_storeSet]

end RcloneVfs

namespace RcloneVfs

/-- A successful pending lookup names an actual pending entry. -/
theorem pendingLookup_mem (pending : List (String × LocalChange))
    (n : String) (c : LocalChange)
    (h : pendingLookup pending n = some c) : (n, c) ∈ pending := by
  induction pending with
  | nil => simp [pendingLookup] at h
  | cons nm rest ih =>
    obtain ⟨q, m⟩ := nm
    by_cases hq : q = n
    · subst hq
      simp [pendingLookup] at h
      subst h
      exact List.mem_cons_self _ _
    · simp [pendingLookup, hq] at h
      exact List.mem_cons_of_mem _ (ih h)

/-- A pending local create wins: the name is in the merged listing. -/
theorem mergeListing_created (pending : List (String × LocalChange))
    (n : String) (remote : List String)
    (h : pendingLookup pending n = some LocalChange.created) :
    n ∈ mergeListing remote pending := by
  simp only [mergeListing]
  by_cases hn : n ∈ remote
  · apply List.mem_append_left
    rw [List.mem_filter]
    exact ⟨hn, by simp [h]⟩
  · apply List.mem_append_right
    rw [List.mem_map]
    refine ⟨(n, LocalChange.created), ?_, rfl⟩
    rw [List.mem_filter]
    exact ⟨pendingLookup_mem _ _ _ h, by simp [h, hn]⟩

/-- A pending local delete wins: the name is not in the merged listing. -/
theorem mergeListing_deleted (pending : List (String × LocalChange))
    (n : String) (remote : List String)
    (h : pendingLookup pending n = some LocalChange.deleted) :
    n ∉ mergeListing remote pending := by
  intro hmem
  simp only [mergeListing, List.mem_append] at hmem
  rcases hmem with hmem | hmem
  · rw [List.mem_filter] at hmem
    have h2 := hmem.2
    simp [h] at h2
  · rw [List.mem_map] at hmem
    obtain ⟨nm, hnm, rfl⟩ := hmem
    rw [List.mem_filter] at hnm
    have h2 := hnm.2
    simp [h] at h2

/-- Listing a stale directory serves the merged remote listing. -/
theorem listDir_stale (now ttl : Nat) (remoteNames : List String)
    (d : DirState) (h : d.stale = true) :
    (listDir now ttl remoteNames d).1 =
      mergeListing remoteNames d.pending := by
  simp [listDir, h]

/-- C7: Creating a file under a directory and listing it immediately shows
the new file, deleting one hides it immediately, and in general a pending
local create or delete not yet reflected remotely always wins over the
cached or refreshed remote listing for that name. -/
theorem localMutationWinsListing (d : DirState) (name : String)
    (now ttl : Nat) (remoteNames : List String) :
    name ∈ (listDir now ttl remoteNames (createFileLocal d name)).1 ∧
    name ∉ (listDir now ttl remoteNames (deleteFileLocal d name)).1 ∧
    (∀ (pending : List (String × LocalChange)) (n : String)
        (remote : List String),
      pendingLookup pending n = some LocalChange.created →
        n ∈ mergeListing remote pending) ∧
    (∀ (pending : List (String × LocalChange)) (n : String)
        (remote : List String),
      pendingLookup pending n = some LocalChange.deleted →
        n ∉ mergeListing remote pending) := by
  refine ⟨?_, ?_, fun p n r h => mergeListing_created p n r h,
    fun p n r h => mergeListing_deleted p n r h⟩
  · rw [listDir_stale now ttl remoteNames (createFileLocal d name) rfl]
    exact mergeListing_created _ _ _ (by simp [createFileLocal, pendingLookup])
  · rw [listDir_stale now ttl remoteNames (deleteFileLocal d name) rfl]
    exact mergeListing_deleted _ _ _ (by simp [deleteFileLocal, pendingLookup])

/-- Witness for C7 at a concrete directory state and name. -/
theorem localMutationWinsListingWitness :
    "b" ∈ mergeListing [] [("b", LocalChange.created)] :=
  (localMutationWinsListing ⟨[], [], 0, false⟩ "x" 0 0 []).2.2.1
    [("b", LocalChange.created)] "b" [] (by decide)

end RcloneVfs

namespace MountTest

open RcloneVfs

/-- The loop's constructed runs are exactly the expected initial segment,
appended to whatever was already recorded. -/
theorem testMainLoop_runs (rr : CacheMode → Nat → Int) :
    ∀ (modes : List CacheMode) (s : TMState),
      (testMainLoop rr modes s).runsStarted =
        s.runsStarted ++ expectedRuns rr modes s.nextRunId := by
  intro modes
  induction modes with
  | nil => intro s; simp [testMainLoop, expectedRuns]
  | cons mode rest ih =>
    intro s
    by_cases hrc : rr mode s.nextRunId ≠ 0
    · simp [testMainLoop, expectedRuns, hrc]
    · simp [testMainLoop, expectedRuns, hrc, ih]

/-- Run identifiers of the expected runs are consecutive from the start
identifier: every run is a fresh construction. -/
theorem expectedRuns_snd (rr : CacheMode → Nat → Int) :
    ∀ (modes : List CacheMode) (k : Nat),
      (expectedRuns rr modes k).map Prod.snd =
        List.range' k (expectedRuns rr modes k).length := by
  intro modes
  induction modes with
  | nil => intro k; simp [expectedRuns]
  | cons mode rest ih =>
    intro k
    by_cases hrc : rr mode k ≠ 0
    · simp [expectedRuns, hrc, List.range'_succ]
    · simp [expectedRuns, hrc, ih, List.range'_succ]

/-- When every run returns zero, every mode of the list is exercised. -/
theorem expectedRuns_allOk (rr : CacheMode → Nat → Int)
    (hok : ∀ m k, rr m k = 0) :
    ∀ (modes : List CacheMode) (k : Nat),
      (expectedRuns rr modes k).map Prod.fst = modes := by
  intro modes
  induction modes with
  | nil => intro k; simp [expectedRuns]
  | cons mode rest ih =>
    intro k
    simp [expectedRuns, hok, ih]

/-- C10: The driver exercises the cache modes in the order Off, Minimal,
Writes, Full, constructing a fresh run for each (consecutive fresh run
identifiers), stopping after the first mode whose run returns a non-zero
code (all four modes when every run returns zero), and regardless of how
many modes ran it restores the global cache-mode option to the default
value before exiting. -/
theorem testMainModeSequence (rr : CacheMode → Nat → Int) (s : TMState)
    (h0 : s.runsStarted = []) :
    (TestMain rr s).optCacheMode = defaultCacheMode ∧
    (TestMain rr s).runsStarted = expectedRuns rr cacheModes s.nextRunId ∧
    (TestMain rr s).runsStarted.map Prod.snd =
      List.range' s.nextRunId (TestMain rr s).runsStarted.length ∧
    ((∀ m k, rr m k = 0) →
      (TestMain rr s).runsStarted.map Prod.fst = cacheModes) := by
  have hruns : (TestMain rr s).runsStarted =
      expectedRuns rr cacheModes s.nextRunId := by
    show (testMainLoop rr cacheModes s).runsStarted = _
    rw [testMainLoop_runs, h0]
    rfl
  refine ⟨rfl, hruns, ?_, ?_⟩
  · rw [hruns]
    exact expectedRuns_snd rr cacheModes s.nextRunId
  · intro hok
    rw [hruns]
    exact expectedRuns_allOk rr hok cacheModes s.nextRunId

/-- Witness for C10: with every run succeeding, all four modes run in
order starting from the initial state. -/
theorem testMainModeSequenceWitness :
    (TestMain (fun _ _ => 0)
        ⟨CacheMode.full, [], 0, 0⟩).runsStarted.map Prod.fst = cacheModes :=
  (testMainModeSequence (fun _ _ => 0) ⟨CacheMode.full, [], 0, 0⟩ rfl).2.2.2
    (fun _ _ => rfl)

end MountTest
